import Mathlib

/-!
# Verification of the mapQuiz viewport engine and quiz logic

Shallow embedding of the pure logic of `src/src/App.tsx` (the primary app
variant: `minScale = 1`, `maxScale = 20`).  Screen coordinates, transforms
and geographic coordinates are modelled over `ℚ` (the source works on JS
doubles; every formula in the claims is exact rational arithmetic).

`Math.hypot` and `Math.exp` are irrational-valued, so the handlers take
them as explicit function parameters (`hypot : ℚ → ℚ → ℚ`,
`expFn : ℚ → ℚ`); theorems either hold for every such function or carry an
explicit hypothesis characterising the comparisons the code performs.
-/

/-- A 2-D point (screen or content coordinates). -/
structure Pt where
  x : ℚ
  y : ℚ
deriving DecidableEq, Repr

/-- The viewport transform `{ x, y, scale }` of `App.tsx`
(`useState({ x: 0, y: 0, scale: 1 })`). -/
structure Transform where
  x : ℚ
  y : ℚ
  scale : ℚ
deriving DecidableEq, Repr

/-- Initial transform: `useState({ x: 0, y: 0, scale: 1 })`. -/
def initTransform : Transform := ⟨0, 0, 1⟩

/-- `resetView = () => setTransform({ x: 0, y: 0, scale: 1 })`. -/
def resetView : Transform := ⟨0, 0, 1⟩

/-!
## The active-pointer map

`pointers : Map<number, {x, y}>` is a JS `Map`, which iterates in insertion
order; `Map.set` on an existing key keeps the key's original position.
We model it as an association list in insertion order.
-/

/-- JS `Map.set`: update in place if the key exists, else append. -/
def mapSet (m : List (Nat × Pt)) (k : Nat) (v : Pt) : List (Nat × Pt) :=
  if m.any (fun e => e.1 = k) then
    m.map (fun e => if e.1 = k then (k, v) else e)
  else
    m ++ [(k, v)]

/-- JS `Map.delete`. -/
def mapDelete (m : List (Nat × Pt)) (k : Nat) : List (Nat × Pt) :=
  m.filter (fun e => ¬ e.1 = k)

/-- JS `Map.has`. -/
def mapHas (m : List (Nat × Pt)) (k : Nat) : Bool :=
  m.any (fun e => e.1 = k)

/-- `getCenter`: the single pointer's position, or the midpoint of the first
two pointers (in insertion order), or `(0, 0)` when the map is empty. -/
def getCenter (m : List (Nat × Pt)) : Pt :=
  match m with
  | [a] => a.2
  | a :: b :: _ => ⟨(a.2.x + b.2.x) / 2, (a.2.y + b.2.y) / 2⟩
  | [] => ⟨0, 0⟩

/-- `getDist`: `Math.hypot` of the first two pointers' coordinate
differences, `0` when fewer than two pointers are active.  `hypot` stands
for `Math.hypot`. -/
def getDist (hypot : ℚ → ℚ → ℚ) (m : List (Nat × Pt)) : ℚ :=
  match m with
  | a :: b :: _ => hypot (a.2.x - b.2.x) (a.2.y - b.2.y)
  | _ => 0

/-- The mutable interaction state of the map component: the refs
`pointers`, `lastCenter`, `lastDist`, `dragState`, `suppressClick` and the
`transform` state. -/
structure MapState where
  pointers : List (Nat × Pt)
  lastCenter : Option Pt
  lastDist : ℚ
  dragStart : Option Pt
  dragMoved : Bool
  suppressClick : Bool
  transform : Transform
deriving DecidableEq, Repr

/-- The idle state: no active pointers, nothing pending. -/
def idleMapState : MapState :=
  ⟨[], none, 0, none, false, false, initTransform⟩

/-- `handlePointerDown`: record the pointer; recompute `lastCenter`;
if this makes two pointers, record the pinch baseline; if it is the first
pointer, start a fresh drag record, else mark the gesture as moved. -/
def handlePointerDown (hypot : ℚ → ℚ → ℚ) (pid : Nat) (p : Pt)
    (s : MapState) : MapState :=
  let pts := mapSet s.pointers pid p
  let ld := if pts.length = 2 then getDist hypot pts else s.lastDist
  if pts.length = 1 then
    { s with pointers := pts, lastCenter := some (getCenter pts),
             lastDist := ld, dragStart := some p, dragMoved := false }
  else
    { s with pointers := pts, lastCenter := some (getCenter pts),
             lastDist := ld, dragMoved := true }

/-- `handlePointerMove`.  Early-returns when the pointer is unknown or no
previous centre is recorded.  One pointer: pan by the centroid delta and
test the 6-pixel drag threshold.  Two pointers: mark moved, and when the
pinch baseline is positive apply the clamped anchor-preserving zoom about
the centroid in viewport-local coordinates (`rectLeft`/`rectTop` are the
map container's bounding-rect origin; the source guards on
`mapRef.current`, which is always the container the handler is attached
to).  The baseline and centre are then updated. -/
def handlePointerMove (hypot : ℚ → ℚ → ℚ) (rectLeft rectTop : ℚ)
    (pid : Nat) (p : Pt) (s : MapState) : MapState :=
  if mapHas s.pointers pid = false ∨ s.lastCenter = none then s
  else
    match s.lastCenter with
    | none => s
    | some lc =>
      let pts := mapSet s.pointers pid p
      let center := getCenter pts
      if pts.length = 1 then
        let dx := center.x - lc.x
        let dy := center.y - lc.y
        let moved :=
          match s.dragStart with
          | some st =>
            if s.dragMoved = false then
              if 6 < hypot (p.x - st.x) (p.y - st.y) then true else s.dragMoved
            else s.dragMoved
          | none => s.dragMoved
        { s with pointers := pts, lastCenter := some center,
                 dragMoved := moved,
                 transform := { s.transform with
                                x := s.transform.x + dx,
                                y := s.transform.y + dy } }
      else if pts.length = 2 then
        let dist := getDist hypot pts
        let tr :=
          if 0 < s.lastDist then
            let cx := center.x - rectLeft
            let cy := center.y - rectTop
            let scaleFactor := dist / s.lastDist
            let nextScale := max 1 (min 20 (s.transform.scale * scaleFactor))
            let r := nextScale / s.transform.scale
            { x := cx - (cx - s.transform.x) * r
              y := cy - (cy - s.transform.y) * r
              scale := nextScale }
          else s.transform
        { s with pointers := pts, lastCenter := some center,
                 dragMoved := true, lastDist := dist, transform := tr }
      else
        { s with pointers := pts, lastCenter := some center }

/-- `handlePointerUp` (also bound to pointer-cancel): delete the pointer;
a moved gesture arms `suppressClick`; with exactly one pointer left the
centre and drag anchor are recomputed from it; with none left everything
is cleared.  `lastDist` is never touched here. -/
def handlePointerUp (pid : Nat) (s : MapState) : MapState :=
  let pts := mapDelete s.pointers pid
  let sup := s.dragMoved || s.suppressClick
  if pts.length = 0 then
    { s with pointers := pts, suppressClick := sup,
             lastCenter := none, dragStart := none, dragMoved := false }
  else if pts.length = 1 then
    { s with pointers := pts, suppressClick := sup,
             lastCenter := some (getCenter pts),
             dragStart := some (getCenter pts), dragMoved := false }
  else
    { s with pointers := pts, suppressClick := sup }

/-- `handleWheel`: exponential zoom about the cursor in viewport-local
coordinates.  `expFn` stands for `Math.exp`; the source computes
`zoomFactor = Math.exp(-e.deltaY * 0.001)`. -/
def handleWheel (expFn : ℚ → ℚ) (rectLeft rectTop : ℚ)
    (clientX clientY deltaY : ℚ) (s : MapState) : MapState :=
  let cx := clientX - rectLeft
  let cy := clientY - rectTop
  let zoomFactor := expFn (-deltaY * (1 / 1000))
  let nextScale := max 1 (min 20 (s.transform.scale * zoomFactor))
  let r := nextScale / s.transform.scale
  let tr : Transform :=
    { x := cx - (cx - s.transform.x) * r
      y := cy - (cy - s.transform.y) * r
      scale := nextScale }
  { s with transform := tr }

/-- A pointer/wheel event as seen by the map container. -/
inductive PEvent where
  | down (pid : Nat) (x y : ℚ)
  | move (pid : Nat) (x y : ℚ)
  | up (pid : Nat)
  | cancel (pid : Nat)
  | wheel (clientX clientY deltaY : ℚ)
deriving DecidableEq, Repr

/-- One step of the viewport state machine. -/
def step (hypot : ℚ → ℚ → ℚ) (expFn : ℚ → ℚ) (rectLeft rectTop : ℚ)
    (s : MapState) : PEvent → MapState
  | .down pid x y => handlePointerDown hypot pid ⟨x, y⟩ s
  | .move pid x y => handlePointerMove hypot rectLeft rectTop pid ⟨x, y⟩ s
  | .up pid => handlePointerUp pid s
  | .cancel pid => handlePointerUp pid s
  | .wheel cx cy dy => handleWheel expFn rectLeft rectTop cx cy dy s

/-- Run a list of events from a state. -/
def run (hypot : ℚ → ℚ → ℚ) (expFn : ℚ → ℚ) (rectLeft rectTop : ℚ)
    (s : MapState) (es : List PEvent) : MapState :=
  es.foldl (step hypot expFn rectLeft rectTop) s

/-!
## Geographic data model

GeoJSON positions are `[lon, lat]` pairs (`project` reads `coords[0]` and
`coords[1]`; the destructuring loops read the first two entries).
-/

/-- A geographic position `[lon, lat]`. -/
structure LonLat where
  lon : ℚ
  lat : ℚ
deriving DecidableEq, Repr

/-- A supported geometry: `Polygon` (rings of positions) or
`MultiPolygon` (a list of polygons). -/
inductive Geometry where
  | polygon (coordinates : List (List LonLat))
  | multiPolygon (coordinates : List (List (List LonLat)))
deriving DecidableEq, Repr

/-- A raw upstream geometry before filtering: the two supported kinds or
any other GeoJSON kind (identified by its type string). -/
inductive RawGeometry where
  | polygon (coordinates : List (List LonLat))
  | multiPolygon (coordinates : List (List (List LonLat)))
  | other (kind : String)
deriving DecidableEq, Repr

/-- The GeoJSON property fields the app reads.  `none` models an absent
field; JS string truthiness makes the empty string behave like absence,
handled by `jsStr`/`jsOr` below. -/
structure GeoProperties where
  ADMIN : Option String
  name : Option String
  ISO_A3 : Option String
  ISO_A2 : Option String
  alpha2 : Option String
  alpha3 : Option String
deriving DecidableEq, Repr

/-- `{}`: the empty property bag (used for `feature.properties ?? {}`). -/
def emptyProps : GeoProperties := ⟨none, none, none, none, none, none⟩

/-- A raw upstream feature: geometry and properties may be absent. -/
structure RawGeoFeature where
  geometry : Option RawGeometry
  properties : Option GeoProperties
deriving DecidableEq, Repr

/-- A loaded feature (after filtering). -/
structure GeoFeature where
  geometry : Geometry
  properties : GeoProperties
deriving DecidableEq, Repr

/-- The loaded collection. -/
structure GeoCollection where
  features : List GeoFeature
deriving DecidableEq, Repr

/-- An undefined-able JS string: `undefined` reads as the falsy `""`. -/
def jsStr (o : Option String) : String := o.getD ""

/-- JS `a || b` on strings: `b` when `a` is falsy (empty), else `a`. -/
def jsOr (a b : String) : String := if a = "" then b else a

/-- `isGeometrySupported`: the geometry exists and its type is `Polygon`
or `MultiPolygon`. -/
def isGeometrySupported : Option RawGeometry → Bool
  | some (.polygon _) => true
  | some (.multiPolygon _) => true
  | _ => false

/-- Convert a supported raw geometry; `none` for other kinds. -/
def toSupported : RawGeometry → Option Geometry
  | .polygon c => some (.polygon c)
  | .multiPolygon c => some (.multiPolygon c)
  | .other _ => none

/-- `hasName`: `Boolean(properties?.ADMIN || properties?.name)`. -/
def hasName : Option GeoProperties → Bool
  | none => false
  | some p => !(jsOr (jsStr p.ADMIN) (jsStr p.name) == "")

/-- `getEnglishName`: `ADMIN || name || 'Unknown'`. -/
def getEnglishName (p : GeoProperties) : String :=
  jsOr (jsStr p.ADMIN) (jsOr (jsStr p.name) "Unknown")

/-- `getCountryId`:
`ISO_A3 || properties['ISO3166-1-Alpha-3'] || name || ADMIN || 'unknown'`. -/
def getCountryId (p : GeoProperties) : String :=
  jsOr (jsStr p.ISO_A3) (jsOr (jsStr p.alpha3) (jsOr (jsStr p.name)
    (jsOr (jsStr p.ADMIN) "unknown")))

/-- ASCII upper-casing, character by character (`String.toUpperCase` on
the two-letter ASCII region codes this is applied to). -/
def toUpperStr (s : String) : String := ⟨s.data.map Char.toUpper⟩

/-- One character of the `/^[A-Z]{2}$/` test. -/
def isUpperAZ (c : Char) : Bool := decide ('A' ≤ c) && decide (c ≤ 'Z')

/-- `getJapaneseName`: localize via `Intl.DisplayNames` when the region
code (`properties['ISO3166-1-Alpha-2'] || properties.ISO_A2`, upper-cased)
matches `/^[A-Z]{2}$/`, falling back to the English name.  `intl` stands
for the external `Intl.DisplayNames('ja').of`; `intl rc = none` also
covers an unavailable `Intl.DisplayNames`, and a falsy (empty) display
result falls back (`if (display) return display`). -/
def getJapaneseName (intl : String → Option String) (p : GeoProperties) :
    String :=
  let rawRegion := jsOr (jsStr p.alpha2) (jsStr p.ISO_A2)
  let regionCode := toUpperStr rawRegion
  if regionCode.data.length = 2 ∧ regionCode.data.all isUpperAZ then
    match intl regionCode with
    | some display => if display = "" then getEnglishName p else display
    | none => getEnglishName p
  else getEnglishName p

/-- `extractPoints`: for a polygon, `coordinates.flat()`; for a
multi-polygon, `coordinates.flatMap(polygon => polygon.flat())`. -/
def extractPoints : Geometry → List LonLat
  | .polygon rings => rings.flatten
  | .multiPolygon polys => polys.flatMap (fun poly => poly.flatten)

/-- The fixed logical canvas width `MAP_WIDTH = 800`. -/
def MAP_WIDTH : ℚ := 800

/-- The fixed logical canvas height `MAP_HEIGHT = 400`. -/
def MAP_HEIGHT : ℚ := 400

/-- `project`: the equirectangular mapping
`x = (lon + 180) * (MAP_WIDTH / 360)`, `y = (90 - lat) * (MAP_HEIGHT / 180)`. -/
def project (lon lat : ℚ) : Pt :=
  ⟨(lon + 180) * (MAP_WIDTH / 360), (90 - lat) * (MAP_HEIGHT / 180)⟩

/-- Axis-aligned geographic bounds. -/
structure LatLonBox where
  minLat : ℚ
  maxLat : ℚ
  minLon : ℚ
  maxLon : ℚ
deriving DecidableEq, Repr

/-- The min/max fold of `buildFallbackHint` over a non-empty point list.
The source starts the fold at `±Infinity`; over a non-empty list this is
the same as starting from the first point's coordinates. -/
def latLonBox (p : LonLat) (ps : List LonLat) : LatLonBox :=
  ps.foldl
    (fun b q =>
      ⟨min b.minLat q.lat, max b.maxLat q.lat,
       min b.minLon q.lon, max b.maxLon q.lon⟩)
    ⟨p.lat, p.lat, p.lon, p.lon⟩

/-- Axis-aligned projected bounds. -/
structure Bounds where
  minX : ℚ
  maxX : ℚ
  minY : ℚ
  maxY : ℚ
deriving DecidableEq, Repr

/-- `getProjectedBounds`: project every point and fold min/max;
`null` (here `none`) for an empty point set.  As in `latLonBox`, the
`±Infinity` starting accumulator is realised by starting from the first
projected point. -/
def getProjectedBounds (f : GeoFeature) : Option Bounds :=
  match extractPoints f.geometry with
  | [] => none
  | p :: ps =>
    let q := project p.lon p.lat
    some (ps.foldl
      (fun b r =>
        let s := project r.lon r.lat
        ⟨min b.minX s.x, max b.maxX s.x, min b.minY s.y, max b.maxY s.y⟩)
      ⟨q.x, q.x, q.y, q.y⟩)

/-- An AI hint payload `{ main_hint, summary }`. -/
structure Hint where
  main_hint : String
  summary : String
deriving DecidableEq, Repr

/-- Whether the geometry is a `MultiPolygon` with more than one
constituent polygon. -/
def isFragmented : Geometry → Bool
  | .multiPolygon polys => decide (1 < polys.length)
  | .polygon _ => false

/-- `buildFallbackHint`: deterministic hint from the geometry's
lat/lon bounding box and the localized name. -/
def buildFallbackHint (intl : String → Option String) (f : GeoFeature) :
    Hint :=
  let nm := getJapaneseName intl f.properties
  match extractPoints f.geometry with
  | [] =>
    { main_hint := nm ++ "の解説を表示するにはAIヒントを生成してください。"
      summary := nm ++ " / 解説準備中" }
  | p :: ps =>
    let b := latLonBox p ps
    let centerLat := (b.minLat + b.maxLat) / 2
    let centerLon := (b.minLon + b.maxLon) / 2
    let latLabel := if 0 ≤ centerLat then "北半球" else "南半球"
    let lonLabel := if 0 ≤ centerLon then "東半球" else "西半球"
    let extentArea := |(b.maxLat - b.minLat) * (b.maxLon - b.minLon)|
    let sizeLabel :=
      if extentArea < 20 then "小さめ"
      else if extentArea < 80 then "中規模" else "広い"
    let shapeLabel :=
      if isFragmented f.geometry then "島が点在する国"
      else "ひと続きの陸地を持つ国"
    { main_hint := nm ++ "は" ++ latLabel ++ "・" ++ lonLabel ++ "に位置し、"
        ++ shapeLabel ++ "で、" ++ sizeLabel ++ "な国です。"
      summary := nm ++ " / " ++ latLabel ++ "・" ++ lonLabel ++ " / "
        ++ sizeLabel }

/-!
## Coordinate-leak filter and hint acceptance
-/

/-- Whether `pat` is an initial segment of `l` (character comparison). -/
def leadsWith : List Char → List Char → Bool
  | [], _ => true
  | _ :: _, [] => false
  | a :: as, b :: bs => a == b && leadsWith as bs

/-- Whether `pat` occurs as a contiguous run somewhere in `l`. -/
def occursIn (pat : List Char) : List Char → Bool
  | [] => leadsWith pat []
  | c :: rest => leadsWith pat (c :: rest) || occursIn pat rest

/-- Substring test used to model the regex alternation of string
literals. -/
def containsSub (s pat : String) : Bool := occursIn pat.data s.data

/-- `isCoordinateHint`: the regex test
`/緯度|経度|北緯|南緯|東経|西経|°/.test(value)` — an alternation of plain
string literals, i.e. a substring test for each term. -/
def isCoordinateHint (value : String) : Bool :=
  containsSub value "緯度" || containsSub value "経度" ||
  containsSub value "北緯" || containsSub value "南緯" ||
  containsSub value "東経" || containsSub value "西経" ||
  containsSub value "°"

/-- The accept/reject decision of `generateAIHint` on a parsed remote
hint: a coordinate-term match in either field substitutes the fallback
hint for the same region, otherwise the parsed hint is used as-is. -/
def filterHint (intl : String → Option String) (f : GeoFeature)
    (parsed : Hint) : Hint :=
  if isCoordinateHint parsed.main_hint || isCoordinateHint parsed.summary then
    buildFallbackHint intl f
  else parsed

/-!
## Quiz controller
-/

/-- `{ isCorrect, message }`. -/
structure Feedback where
  isCorrect : Bool
  message : String
deriving DecidableEq, Repr

/-- The quiz-side React state read and written by `handleCountryClick`
and `startNewQuestion`. -/
structure QuizState where
  currentCountry : Option GeoFeature
  hint : Option Hint
  loading : Bool
  feedback : Option Feedback
  score : ℚ
  selectedId : Option String
  isHintMinimized : Bool
deriving DecidableEq, Repr

/-- `handleCountryClick(id, name)`.  Returns the updated map state
(the `suppressClick` ref may be consumed) and quiz state.  The Firestore
history write is external I/O and not modelled (it does not feed back
into any state here). -/
def handleCountryClick (intl : String → Option String) (ms : MapState)
    (qs : QuizState) (id name : String) : MapState × QuizState :=
  if qs.feedback.isSome || qs.loading || decide (1 < ms.pointers.length) ||
      qs.currentCountry.isNone then
    (ms, qs)
  else if ms.suppressClick then
    ({ ms with suppressClick := false }, qs)
  else
    match qs.currentCountry with
    | none => (ms, qs)
    | some c =>
      let correctName := getJapaneseName intl c.properties
      let targetId := getCountryId c.properties
      if targetId = "" then (ms, qs)
      else
        let isCorrect := id == targetId
        let msg :=
          if isCorrect then "正解！"
          else "違います。そこは「" ++ name ++ "」です。正解は「" ++
            correctName ++ "」です。"
        let qs' := { qs with
          selectedId := some id
          feedback := some ⟨isCorrect, msg⟩
          score := if isCorrect then qs.score + 10 else qs.score }
        (ms, qs')

/-- `startNewQuestion`.  `randIdx` models
`Math.floor(Math.random() * geoData.features.length)`; the JS
out-of-bounds index read yields `undefined`, modelled by `List.get?`.
On a present collection the synchronous prefix of `generateAIHint`
also runs (`setLoading(true)`, `setHint(null)`); the returned `Bool`
records that the hint flow was invoked at all. -/
def startNewQuestion (randIdx : Nat) (geoData : Option GeoCollection)
    (qs : QuizState) : QuizState × Bool :=
  match geoData with
  | none => (qs, false)
  | some g =>
    let random := g.features.get? randIdx
    ({ qs with
        currentCountry := random
        feedback := none
        selectedId := none
        isHintMinimized := false
        loading := true
        hint := none }, true)

/-!
## Load-time feature filtering (`fetchGeoData`)
-/

/-- The per-feature validation and conversion inside `fetchGeoData`:
drop the feature unless its geometry is supported and it has a name;
otherwise keep it with `properties ?? {}`. -/
def convertFeature (f : RawGeoFeature) : Option GeoFeature :=
  if !isGeometrySupported f.geometry || !hasName f.properties then none
  else
    match f.geometry with
    | some rg => (toSupported rg).map
        (fun g => GeoFeature.mk g (f.properties.getD emptyProps))
    | none => none

/-- The `map`/`filter` pipeline of `fetchGeoData` over the raw feature
list. -/
def filterFeatures (raws : List RawGeoFeature) : List GeoFeature :=
  raws.filterMap convertFeature

/-!
## Fit-to-region (the post-answer camera effect)
-/

/-- The pure computation of the fit-to-region effect, given the
container's client size, the SVG viewBox size (the source reads
`svg.viewBox.baseVal.width || MAP_WIDTH`, modelled by the `= 0`
fallbacks), and the target's rendered or projected bounds.  The effect
early-returns when the container size is zero; theorems about the
computed transform carry that as a hypothesis where needed. -/
def fitTransform (containerW containerH viewW viewH : ℚ) (b : Bounds) :
    Transform :=
  let vw := if viewW = 0 then MAP_WIDTH else viewW
  let vh := if viewH = 0 then MAP_HEIGHT else viewH
  let baseScale := min (containerW / vw) (containerH / vh)
  let offsetX := (containerW - vw * baseScale) / 2
  let offsetY := (containerH - vh * baseScale) / 2
  let padding : ℚ := 40
  let w := max 1 (b.maxX - b.minX)
  let h := max 1 (b.maxY - b.minY)
  let scaleX := (containerW - padding * 2) / (w * baseScale)
  let scaleY := (containerH - padding * 2) / (h * baseScale)
  let nextScale := max 1 (min 20 (min scaleX scaleY))
  let centerX := (b.minX + b.maxX) / 2
  let centerY := (b.minY + b.maxY) / 2
  let centerCssX := offsetX + centerX * baseScale
  let centerCssY := offsetY + centerY * baseScale
  { x := containerW / 2 - centerCssX * nextScale
    y := containerH / 2 - centerCssY * nextScale
    scale := nextScale }

/-!
## Concrete fixtures

Used by the closed witness/counterexample theorems.  `hypotAbs` stands in
for `Math.hypot`; on the axis-aligned inputs of every fixture below
(`a = 0` or `b = 0`) it coincides with the Euclidean distance
`Math.hypot` computes.  `expTwo` is a stand-in for the transcendental
`Math.exp` at a fixed sample value.  `intlNone` models an unavailable
`Intl.DisplayNames` (the English-name fallback).
-/

/-- Stand-in for `Math.hypot`; equal to it whenever one argument is 0. -/
def hypotAbs (a b : ℚ) : ℚ := |a| + |b|

/-- Stand-in for `Math.exp` returning a fixed zoom factor. -/
def expTwo (_ : ℚ) : ℚ := 2

/-- Unavailable `Intl.DisplayNames`. -/
def intlNone (_ : String) : Option String := none

/-- Properties of the Playwright test fixture (`ADMIN: 'Japan'`,
`ISO_A3: 'JPN'`). -/
def sampleProps : GeoProperties :=
  ⟨some "Japan", none, some "JPN", none, none, none⟩

/-- The square test-fixture polygon spanning `(-120, 60)`–`(120, -20)`. -/
def sampleSquare : Geometry :=
  .polygon [[⟨-120, 60⟩, ⟨120, 60⟩, ⟨120, -20⟩, ⟨-120, -20⟩, ⟨-120, 60⟩]]

/-- The test-fixture feature. -/
def sampleFeature : GeoFeature := ⟨sampleSquare, sampleProps⟩

/-- A round in progress: target set, no feedback yet, not loading. -/
def freshQuiz : QuizState :=
  ⟨some sampleFeature, some ⟨"テスト用のヒントです。", "テストヒント"⟩,
   false, none, 0, none, false⟩

/-- A finished round: feedback present. -/
def doneQuiz : QuizState :=
  ⟨some sampleFeature, some ⟨"テスト用のヒントです。", "テストヒント"⟩,
   false, some ⟨true, "正解！"⟩, 10, some "JPN", false⟩

/-- A loaded collection with zero regions. -/
def emptyColl : GeoCollection := ⟨[]⟩

/-- A raw feature with a name and a supported geometry kind whose
coordinate list is empty. -/
def emptyPolyRaw : RawGeoFeature :=
  ⟨some (.polygon []), some ⟨some "Nowhere", none, none, none, none, none⟩⟩

/-- A mid-pinch map state: two active pointers at `(0,0)` and `(10,0)`,
recorded centre `(5,0)`, pinch baseline `10`, identity transform. -/
def pinchState : MapState :=
  ⟨[(1, ⟨0, 0⟩), (2, ⟨10, 0⟩)], some ⟨5, 0⟩, 10, none, true, false,
   ⟨0, 0, 1⟩⟩

/-- The event stream of a single-pointer drag: pointer-down at `p0`,
the given sequence of pointer-moves, pointer-up. -/
def dragEvents (pid : Nat) (p0 : Pt) (moves : List Pt) : List PEvent :=
  .down pid p0.x p0.y :: (moves.map (fun q => .move pid q.x q.y) ++ [.up pid])

/-- Fold of `handlePointerMove` over a list of positions for one pointer. -/
def runMoves (hypot : ℚ → ℚ → ℚ) (rectLeft rectTop : ℚ) (pid : Nat)
    (moves : List Pt) (s : MapState) : MapState :=
  moves.foldl (fun st q => handlePointerMove hypot rectLeft rectTop pid q st) s

/-- Modelled from the spec (§4.5), for the C8 comparison: assemble the
fallback-hint labels from a bounding box — hemisphere labels from the
signs of the box's vertical and horizontal centres, the size label from
the box area against the fixed thresholds 20 and 80, and the
fragmented-vs-contiguous label from the multi-polygon test. -/
def specHintFromBox (nm : String) (fragmented : Bool) (b : LatLonBox) :
    Hint :=
  let latLabel := if 0 ≤ (b.minLat + b.maxLat) / 2 then "北半球" else "南半球"
  let lonLabel := if 0 ≤ (b.minLon + b.maxLon) / 2 then "東半球" else "西半球"
  let area := |(b.maxLat - b.minLat) * (b.maxLon - b.minLon)|
  let sizeLabel :=
    if area < 20 then "小さめ" else if area < 80 then "中規模" else "広い"
  let shapeLabel :=
    if fragmented then "島が点在する国" else "ひと続きの陸地を持つ国"
  { main_hint := nm ++ "は" ++ latLabel ++ "・" ++ lonLabel ++ "に位置し、"
      ++ shapeLabel ++ "で、" ++ sizeLabel ++ "な国です。"
    summary := nm ++ " / " ++ latLabel ++ "・" ++ lonLabel ++ " / "
      ++ sizeLabel }


/-- The raw upstream form of the test fixture (valid geometry and name). -/
def rawJapan : RawGeoFeature :=
  ⟨some (.polygon [[⟨-120, 60⟩, ⟨120, 60⟩, ⟨120, -20⟩, ⟨-120, -20⟩,
      ⟨-120, 60⟩]]), some sampleProps⟩

/-- A raw feature with valid geometry but no properties at all (hence no
name fields). -/
def noNameRaw : RawGeoFeature := ⟨some (.polygon [[⟨0, 0⟩]]), none⟩

/-!
## Helper lemmas
-/

/-- The scale clamp `Math.max(1, Math.min(20, z))` always lands in
`[1, 20]`. -/
theorem clamp_scale_bounds (z : ℚ) :
    1 ≤ max 1 (min 20 z) ∧ max 1 (min 20 z) ≤ 20 :=
  ⟨le_max_left 1 _, max_le (by norm_num) (min_le_left _ _)⟩

/-!
## C3 — the projection formula and its monotonicity
-/

/-- C3: `project` returns exactly `x = (lon + 180) * (W/360)` and
`y = (90 - lat) * (H/180)` with `W = 800`, `H = 400`; on valid coordinate
ranges, strictly increasing longitude strictly increases `x` and strictly
increasing latitude strictly decreases `y`. -/
theorem project_formula_and_monotone :
    (∀ lon lat : ℚ,
      project lon lat = ⟨(lon + 180) * (800 / 360), (90 - lat) * (400 / 180)⟩) ∧
    (∀ lon₁ lon₂ lat : ℚ, -180 ≤ lon₁ → lon₂ ≤ 180 → lon₁ < lon₂ →
      (project lon₁ lat).x < (project lon₂ lat).x) ∧
    (∀ lon lat₁ lat₂ : ℚ, -90 ≤ lat₁ → lat₂ ≤ 90 → lat₁ < lat₂ →
      (project lon lat₂).y < (project lon lat₁).y) := by
  refine ⟨fun lon lat => rfl, fun lon₁ lon₂ lat _ _ h => ?_,
    fun lon lat₁ lat₂ _ _ h => ?_⟩
  · show (lon₁ + 180) * (MAP_WIDTH / 360) < (lon₂ + 180) * (MAP_WIDTH / 360)
    have hw : (0 : ℚ) < MAP_WIDTH / 360 := by norm_num [MAP_WIDTH]
    exact mul_lt_mul_of_pos_right (by linarith) hw
  · show (90 - lat₂) * (MAP_HEIGHT / 180) < (90 - lat₁) * (MAP_HEIGHT / 180)
    have hh : (0 : ℚ) < MAP_HEIGHT / 180 := by norm_num [MAP_HEIGHT]
    exact mul_lt_mul_of_pos_right (by linarith) hh

/-- Witness for C3 at concrete coordinates. -/
theorem project_formula_and_monotone_witness :
    project 0 0 = ⟨(0 + 180) * (800 / 360), (90 - 0) * (400 / 180)⟩ ∧
    (project 10 0).x < (project 20 0).x ∧
    (project 0 20).y < (project 0 10).y :=
  ⟨project_formula_and_monotone.1 0 0,
   project_formula_and_monotone.2.1 10 20 0 (by norm_num) (by norm_num)
     (by norm_num),
   project_formula_and_monotone.2.2 0 10 20 (by norm_num) (by norm_num)
     (by norm_num)⟩

/-!
## C2 — the scale component always lies in `[minScale, maxScale] = [1, 20]`
-/

/-- C2: the initial and reset transforms have scale in `[1, 20]`; every
pointer/wheel event preserves membership of the scale in `[1, 20]`
(pinch and wheel clamp it outright, the other events leave it unchanged),
for arbitrary gesture magnitudes; and every fit-to-region computation
yields a scale in `[1, 20]` for arbitrary region bounds and container
sizes. -/
theorem scale_always_clamped :
    (1 ≤ initTransform.scale ∧ initTransform.scale ≤ 20) ∧
    (1 ≤ resetView.scale ∧ resetView.scale ≤ 20) ∧
    (∀ (hypot : ℚ → ℚ → ℚ) (expFn : ℚ → ℚ) (rl rt : ℚ) (s : MapState)
      (e : PEvent), 1 ≤ s.transform.scale → s.transform.scale ≤ 20 →
      1 ≤ (step hypot expFn rl rt s e).transform.scale ∧
        (step hypot expFn rl rt s e).transform.scale ≤ 20) ∧
    (∀ (cw ch vw vh : ℚ) (b : Bounds),
      1 ≤ (fitTransform cw ch vw vh b).scale ∧
        (fitTransform cw ch vw vh b).scale ≤ 20) := by
  refine ⟨by norm_num [initTransform], by norm_num [resetView], ?_, ?_⟩
  · intro hypot expFn rl rt s e h1 h2
    cases e with
    | down pid x y =>
      simp only [step, handlePointerDown]
      split_ifs <;> exact ⟨h1, h2⟩
    | move pid x y =>
      cases hlc : s.lastCenter with
      | none =>
        simp only [step, handlePointerMove, hlc]
        simp
        exact ⟨h1, h2⟩
      | some lc =>
        simp only [step, handlePointerMove, hlc]
        split_ifs <;> first | exact ⟨h1, h2⟩ | exact clamp_scale_bounds _
    | up pid =>
      simp only [step, handlePointerUp]
      split_ifs <;> exact ⟨h1, h2⟩
    | cancel pid =>
      simp only [step, handlePointerUp]
      split_ifs <;> exact ⟨h1, h2⟩
    | wheel cx cy dy =>
      exact clamp_scale_bounds _
  · intro cw ch vw vh b
    exact clamp_scale_bounds _

/-- Witness for C2: a wheel event from the idle state, and a degenerate
fit request. -/
theorem scale_always_clamped_witness :
    (1 ≤ (step hypotAbs expTwo 0 0 idleMapState (.wheel 0 0 0)).transform.scale ∧
      (step hypotAbs expTwo 0 0 idleMapState (.wheel 0 0 0)).transform.scale ≤ 20) ∧
    (1 ≤ (fitTransform 800 600 0 0 ⟨0, 0, 0, 0⟩).scale ∧
      (fitTransform 800 600 0 0 ⟨0, 0, 0, 0⟩).scale ≤ 20) :=
  ⟨scale_always_clamped.2.2.1 hypotAbs expTwo 0 0 idleMapState (.wheel 0 0 0)
      (by norm_num [idleMapState, initTransform])
      (by norm_num [idleMapState, initTransform]),
   scale_always_clamped.2.2.2 800 600 0 0 ⟨0, 0, 0, 0⟩⟩

/-!
## C1 — zoom steps are anchor-preserving
-/

/-- Characterisation of a pinch-zoom move (two active pointers, positive
baseline): the handler applies the clamped anchor-preserving rescale about
the centroid in viewport-local coordinates. -/
theorem move_pinch_step (hypot : ℚ → ℚ → ℚ) (rl rt : ℚ) (pid : Nat)
    (p : Pt) (s : MapState) (lc : Pt)
    (hlc : s.lastCenter = some lc) (hhas : mapHas s.pointers pid = true)
    (hlen : (mapSet s.pointers pid p).length = 2) (hld : 0 < s.lastDist) :
    handlePointerMove hypot rl rt pid p s =
      { s with
        pointers := mapSet s.pointers pid p
        lastCenter := some (getCenter (mapSet s.pointers pid p))
        dragMoved := true
        lastDist := getDist hypot (mapSet s.pointers pid p)
        transform :=
          { x := ((getCenter (mapSet s.pointers pid p)).x - rl) -
              (((getCenter (mapSet s.pointers pid p)).x - rl) - s.transform.x) *
                (max 1 (min 20 (s.transform.scale *
                  (getDist hypot (mapSet s.pointers pid p) / s.lastDist))) /
                  s.transform.scale)
            y := ((getCenter (mapSet s.pointers pid p)).y - rt) -
              (((getCenter (mapSet s.pointers pid p)).y - rt) - s.transform.y) *
                (max 1 (min 20 (s.transform.scale *
                  (getDist hypot (mapSet s.pointers pid p) / s.lastDist))) /
                  s.transform.scale)
            scale := max 1 (min 20 (s.transform.scale *
              (getDist hypot (mapSet s.pointers pid p) / s.lastDist))) } } := by
  simp [handlePointerMove, hlc, hhas, hlen, hld]

/-- The algebra of the anchor-preserving translation update: the content
point under the anchor is unchanged by the rescale. -/
theorem anchor_div (A x scale scale' : ℚ) (h : 0 < scale) (h' : 0 < scale') :
    (A - (A - (A - x) * (scale' / scale))) / scale' = (A - x) / scale := by
  have h1 : scale ≠ 0 := ne_of_gt h
  have h2 : scale' ≠ 0 := ne_of_gt h'
  field_simp
  ring

/-- C1: on every zoom step — a pinch move with two active pointers and a
positive previous inter-pointer distance, or a wheel event — the new
transform satisfies
`newTranslation = anchor - (anchor - oldTranslation) * (newScale/oldScale)`
with the anchor at the gesture centroid (pinch) or cursor (wheel) in
viewport-local coordinates; consequently, whenever the scale clamp does
not alter the new scale relative to the unclamped product, the
content-space point under the anchor is exactly the same before and after
the step (hence within any epsilon). -/
theorem zoom_anchor_invariant :
    (∀ (hypot : ℚ → ℚ → ℚ) (rl rt : ℚ) (pid : Nat) (p : Pt) (s : MapState)
      (lc : Pt), s.lastCenter = some lc → mapHas s.pointers pid = true →
      (mapSet s.pointers pid p).length = 2 → 0 < s.lastDist →
      0 < s.transform.scale →
      ((handlePointerMove hypot rl rt pid p s).transform.x =
        ((getCenter (mapSet s.pointers pid p)).x - rl) -
          (((getCenter (mapSet s.pointers pid p)).x - rl) - s.transform.x) *
            ((handlePointerMove hypot rl rt pid p s).transform.scale /
              s.transform.scale) ∧
       (handlePointerMove hypot rl rt pid p s).transform.y =
        ((getCenter (mapSet s.pointers pid p)).y - rt) -
          (((getCenter (mapSet s.pointers pid p)).y - rt) - s.transform.y) *
            ((handlePointerMove hypot rl rt pid p s).transform.scale /
              s.transform.scale)) ∧
      (max 1 (min 20 (s.transform.scale *
          (getDist hypot (mapSet s.pointers pid p) / s.lastDist))) =
        s.transform.scale *
          (getDist hypot (mapSet s.pointers pid p) / s.lastDist) →
        ((((getCenter (mapSet s.pointers pid p)).x - rl) -
            (handlePointerMove hypot rl rt pid p s).transform.x) /
              (handlePointerMove hypot rl rt pid p s).transform.scale =
          (((getCenter (mapSet s.pointers pid p)).x - rl) - s.transform.x) /
            s.transform.scale ∧
         (((getCenter (mapSet s.pointers pid p)).y - rt) -
            (handlePointerMove hypot rl rt pid p s).transform.y) /
              (handlePointerMove hypot rl rt pid p s).transform.scale =
          (((getCenter (mapSet s.pointers pid p)).y - rt) - s.transform.y) /
            s.transform.scale))) ∧
    (∀ (expFn : ℚ → ℚ) (rl rt cX cY dY : ℚ) (s : MapState),
      0 < s.transform.scale →
      ((handleWheel expFn rl rt cX cY dY s).transform.x =
        (cX - rl) - ((cX - rl) - s.transform.x) *
          ((handleWheel expFn rl rt cX cY dY s).transform.scale /
            s.transform.scale) ∧
       (handleWheel expFn rl rt cX cY dY s).transform.y =
        (cY - rt) - ((cY - rt) - s.transform.y) *
          ((handleWheel expFn rl rt cX cY dY s).transform.scale /
            s.transform.scale)) ∧
      (max 1 (min 20 (s.transform.scale * expFn (-dY * (1 / 1000)))) =
        s.transform.scale * expFn (-dY * (1 / 1000)) →
        (((cX - rl) - (handleWheel expFn rl rt cX cY dY s).transform.x) /
            (handleWheel expFn rl rt cX cY dY s).transform.scale =
          ((cX - rl) - s.transform.x) / s.transform.scale ∧
         ((cY - rt) - (handleWheel expFn rl rt cX cY dY s).transform.y) /
            (handleWheel expFn rl rt cX cY dY s).transform.scale =
          ((cY - rt) - s.transform.y) / s.transform.scale))) := by
  constructor
  · intro hypot rl rt pid p s lc hlc hhas hlen hld hsc
    rw [move_pinch_step hypot rl rt pid p s lc hlc hhas hlen hld]
    have hpos : (0 : ℚ) < max 1 (min 20 (s.transform.scale *
        (getDist hypot (mapSet s.pointers pid p) / s.lastDist))) :=
      lt_of_lt_of_le zero_lt_one (clamp_scale_bounds _).1
    exact ⟨⟨rfl, rfl⟩, fun _hclamp =>
      ⟨anchor_div _ _ _ _ hsc hpos, anchor_div _ _ _ _ hsc hpos⟩⟩
  · intro expFn rl rt cX cY dY s hsc
    have hpos : (0 : ℚ) < max 1 (min 20 (s.transform.scale *
        expFn (-dY * (1 / 1000)))) :=
      lt_of_lt_of_le zero_lt_one (clamp_scale_bounds _).1
    exact ⟨⟨rfl, rfl⟩, fun _hclamp =>
      ⟨anchor_div _ _ _ _ hsc hpos, anchor_div _ _ _ _ hsc hpos⟩⟩

/-- Witness for C1: a concrete pinch step (baseline 10, new distance 20,
scale 1 → 2, clamp inactive) and a concrete wheel step. -/
theorem zoom_anchor_invariant_witness :
    ((((getCenter (mapSet pinchState.pointers 2 ⟨20, 0⟩)).x - 0) -
        (handlePointerMove hypotAbs 0 0 2 ⟨20, 0⟩ pinchState).transform.x) /
      (handlePointerMove hypotAbs 0 0 2 ⟨20, 0⟩ pinchState).transform.scale =
      (((getCenter (mapSet pinchState.pointers 2 ⟨20, 0⟩)).x - 0) -
        pinchState.transform.x) / pinchState.transform.scale) ∧
    (((7 - 0) - (handleWheel expTwo 0 0 7 3 (-5) pinchState).transform.x) /
      (handleWheel expTwo 0 0 7 3 (-5) pinchState).transform.scale =
      ((7 - 0) - pinchState.transform.x) / pinchState.transform.scale) :=
  ⟨((zoom_anchor_invariant.1 hypotAbs 0 0 2 ⟨20, 0⟩ pinchState ⟨5, 0⟩ rfl
      (by decide) (by decide) (by norm_num [pinchState])
      (by norm_num [pinchState])).2
      (by norm_num [pinchState, mapSet, getDist, hypotAbs])).1,
   ((zoom_anchor_invariant.2 expTwo 0 0 7 3 (-5) pinchState
      (by norm_num [pinchState])).2 (by norm_num [pinchState, expTwo])).1⟩

/-!
## C4 — the 6-pixel drag threshold and one-shot click suppression
-/

/-- One single-pointer move on a state holding exactly that pointer:
the position, centre and pan are updated, and the moved flag picks up
whether the distance from the drag anchor exceeded the threshold. -/
theorem move_single_step (hypot : ℚ → ℚ → ℚ) (rl rt : ℚ) (pid : Nat)
    (p q c p0 : Pt) (ld : ℚ) (mv sup : Bool) (tr : Transform) :
    handlePointerMove hypot rl rt pid p
      ⟨[(pid, q)], some c, ld, some p0, mv, sup, tr⟩ =
      ⟨[(pid, p)], some p, ld, some p0,
        mv || decide (6 < hypot (p.x - p0.x) (p.y - p0.y)), sup,
        { tr with x := tr.x + (p.x - c.x), y := tr.y + (p.y - c.y) }⟩ := by
  simp only [handlePointerMove, mapHas, mapSet, getCenter]
  cases mv <;> split_ifs <;> simp_all

/-- Folding single-pointer moves: the moved flag ends up as "some move
exceeded the 6-pixel threshold from the drag anchor"; the drag anchor,
baseline and suppression flag are untouched. -/
theorem runMoves_single (hypot : ℚ → ℚ → ℚ) (rl rt : ℚ) (pid : Nat)
    (p0 : Pt) :
    ∀ (ps : List Pt) (q c : Pt) (ld : ℚ) (mv sup : Bool) (tr : Transform),
      ∃ q2 c2 tr2,
        runMoves hypot rl rt pid ps ⟨[(pid, q)], some c, ld, some p0, mv, sup, tr⟩ =
          ⟨[(pid, q2)], some c2, ld, some p0,
            mv || ps.any (fun p => decide (6 < hypot (p.x - p0.x) (p.y - p0.y))),
            sup, tr2⟩ := by
  intro ps
  induction ps with
  | nil =>
    intro q c ld mv sup tr
    exact ⟨q, c, tr, by simp [runMoves]⟩
  | cons p ps ih =>
    intro q c ld mv sup tr
    obtain ⟨q2, c2, tr2, hrec⟩ := ih p p ld
      (mv || decide (6 < hypot (p.x - p0.x) (p.y - p0.y))) sup
      { tr with x := tr.x + (p.x - c.x), y := tr.y + (p.y - c.y) }
    refine ⟨q2, c2, tr2, ?_⟩
    rw [runMoves, List.foldl_cons,
      move_single_step hypot rl rt pid p q c p0 ld mv sup tr]
    rw [runMoves] at hrec
    rw [hrec]
    simp [List.any_cons, Bool.or_assoc]

/-- A whole drag interaction (down, moves, up) from a state with no
active pointers and a clear suppression flag: afterwards no pointer is
active and the suppression flag holds exactly when some move exceeded the
6-pixel threshold from the drag anchor. -/
theorem drag_run (hypot : ℚ → ℚ → ℚ) (expFn : ℚ → ℚ) (rl rt : ℚ)
    (pid : Nat) (p0 : Pt) (moves : List Pt) (s : MapState)
    (hp : s.pointers = []) (hs : s.suppressClick = false) :
    ∃ ld2 tr2,
      run hypot expFn rl rt s (dragEvents pid p0 moves) =
        ⟨[], none, ld2, none, false,
          moves.any (fun p => decide (6 < hypot (p.x - p0.x) (p.y - p0.y))),
          tr2⟩ := by
  obtain ⟨spts, slc, sld, sds, smv, ssc, str⟩ := s
  dsimp only at hp hs
  subst hp; subst hs
  have hmap : ∀ st : MapState,
      (moves.map (fun q => PEvent.move pid q.x q.y)).foldl
        (step hypot expFn rl rt) st = runMoves hypot rl rt pid moves st := by
    intro st
    rw [List.foldl_map]
    rfl
  have hdown : step hypot expFn rl rt
      ⟨[], slc, sld, sds, smv, false, str⟩ (.down pid p0.x p0.y) =
      ⟨[(pid, p0)], some p0, sld, some p0, false, false, str⟩ := by
    simp [step, handlePointerDown, mapSet, getCenter]
  obtain ⟨q2, c2, tr2, hrm⟩ :=
    runMoves_single hypot rl rt pid p0 moves p0 p0 sld false false str
  refine ⟨sld, tr2, ?_⟩
  rw [dragEvents, run, List.foldl_cons, hdown, List.foldl_append, hmap, hrm]
  simp [step, handlePointerUp, mapDelete]

/-- A click that reaches the guards with feedback absent, not loading, at
most one active pointer, a current target with a non-empty identifier and
no pending suppression is accepted: it records feedback and the selected
identifier. -/
theorem click_accepted (intl : String → Option String) (ms : MapState)
    (qs : QuizState) (id name : String) (c : GeoFeature)
    (hfb : qs.feedback = none) (hld : qs.loading = false)
    (hnp : ¬ 1 < ms.pointers.length) (hcc : qs.currentCountry = some c)
    (hsp : ms.suppressClick = false) (htid : getCountryId c.properties ≠ "") :
    (handleCountryClick intl ms qs id name).2.feedback.isSome = true ∧
    (handleCountryClick intl ms qs id name).2.selectedId = some id := by
  simp [handleCountryClick, hfb, hld, hnp, hcc, hsp, htid]

/-- A click arriving with the suppression flag set (and the guards
otherwise open) only consumes the flag: the quiz state is unchanged. -/
theorem click_suppressed (intl : String → Option String) (ms : MapState)
    (qs : QuizState) (id name : String) (c : GeoFeature)
    (hfb : qs.feedback = none) (hld : qs.loading = false)
    (hnp : ¬ 1 < ms.pointers.length) (hcc : qs.currentCountry = some c)
    (hsp : ms.suppressClick = true) :
    handleCountryClick intl ms qs id name =
      ({ ms with suppressClick := false }, qs) := by
  simp [handleCountryClick, hfb, hld, hnp, hcc, hsp]

/-- C4: for a single-pointer drag interaction started with no pending
suppression, if no move takes the pointer more than 6 pixels from the
drag-start anchor the subsequent click is not suppressed (a region click
is accepted, other guards permitting); if some move exceeds the
threshold, exactly one subsequent click is suppressed — the first click
only consumes and clears the flag, and a second click is processed
normally. -/
theorem drag_threshold_click_suppression :
    ∀ (hypot : ℚ → ℚ → ℚ) (expFn : ℚ → ℚ) (rl rt : ℚ) (pid : Nat)
      (p0 : Pt) (moves : List Pt) (s : MapState)
      (intl : String → Option String) (qs : QuizState) (id name : String)
      (c : GeoFeature),
      s.pointers = [] → s.suppressClick = false →
      qs.feedback = none → qs.loading = false →
      qs.currentCountry = some c → getCountryId c.properties ≠ "" →
      ((∀ p ∈ moves, ¬ 6 < hypot (p.x - p0.x) (p.y - p0.y)) →
        (run hypot expFn rl rt s (dragEvents pid p0 moves)).suppressClick = false ∧
        (handleCountryClick intl (run hypot expFn rl rt s (dragEvents pid p0 moves))
            qs id name).2.feedback.isSome = true ∧
        (handleCountryClick intl (run hypot expFn rl rt s (dragEvents pid p0 moves))
            qs id name).2.selectedId = some id) ∧
      ((∃ p ∈ moves, 6 < hypot (p.x - p0.x) (p.y - p0.y)) →
        (run hypot expFn rl rt s (dragEvents pid p0 moves)).suppressClick = true ∧
        handleCountryClick intl (run hypot expFn rl rt s (dragEvents pid p0 moves))
            qs id name =
          ({ run hypot expFn rl rt s (dragEvents pid p0 moves) with
              suppressClick := false }, qs) ∧
        (handleCountryClick intl
            { run hypot expFn rl rt s (dragEvents pid p0 moves) with
              suppressClick := false } qs id name).2.feedback.isSome = true ∧
        (handleCountryClick intl
            { run hypot expFn rl rt s (dragEvents pid p0 moves) with
              suppressClick := false } qs id name).2.selectedId = some id) := by
  intro hypot expFn rl rt pid p0 moves s intl qs id name c hp hs hfb hld hcc htid
  obtain ⟨ld2, tr2, hfin⟩ := drag_run hypot expFn rl rt pid p0 moves s hp hs
  constructor
  · intro hbelow
    have hany : moves.any
        (fun p => decide (6 < hypot (p.x - p0.x) (p.y - p0.y))) = false := by
      simp only [List.any_eq_false, decide_eq_true_eq]
      exact hbelow
    rw [hfin, hany]
    refine ⟨rfl, ?_, ?_⟩
    · exact (click_accepted intl _ qs id name c hfb hld (by simp) hcc rfl htid).1
    · exact (click_accepted intl _ qs id name c hfb hld (by simp) hcc rfl htid).2
  · intro hexists
    have hany : moves.any
        (fun p => decide (6 < hypot (p.x - p0.x) (p.y - p0.y))) = true := by
      simp only [List.any_eq_true, decide_eq_true_eq]
      exact hexists
    rw [hfin, hany]
    refine ⟨rfl, ?_, ?_, ?_⟩
    · exact click_suppressed intl _ qs id name c hfb hld (by simp) hcc rfl
    · exact (click_accepted intl _ qs id name c hfb hld (by simp) hcc rfl htid).1
    · exact (click_accepted intl _ qs id name c hfb hld (by simp) hcc rfl htid).2

/-- Witness for C4: a 3-pixel drag (click accepted) and a 10-pixel drag
(first click suppressed, second accepted), from the idle state. -/
theorem drag_threshold_witness :
    ((run hypotAbs expTwo 0 0 idleMapState
        (dragEvents 1 ⟨0, 0⟩ [⟨3, 0⟩])).suppressClick = false ∧
      (handleCountryClick intlNone
        (run hypotAbs expTwo 0 0 idleMapState (dragEvents 1 ⟨0, 0⟩ [⟨3, 0⟩]))
        freshQuiz "JPN" "日本").2.feedback.isSome = true ∧
      (handleCountryClick intlNone
        (run hypotAbs expTwo 0 0 idleMapState (dragEvents 1 ⟨0, 0⟩ [⟨3, 0⟩]))
        freshQuiz "JPN" "日本").2.selectedId = some "JPN") ∧
    ((run hypotAbs expTwo 0 0 idleMapState
        (dragEvents 1 ⟨0, 0⟩ [⟨10, 0⟩])).suppressClick = true ∧
      handleCountryClick intlNone
        (run hypotAbs expTwo 0 0 idleMapState (dragEvents 1 ⟨0, 0⟩ [⟨10, 0⟩]))
        freshQuiz "JPN" "日本" =
        ({ run hypotAbs expTwo 0 0 idleMapState
            (dragEvents 1 ⟨0, 0⟩ [⟨10, 0⟩]) with suppressClick := false },
          freshQuiz) ∧
      (handleCountryClick intlNone
        { run hypotAbs expTwo 0 0 idleMapState
            (dragEvents 1 ⟨0, 0⟩ [⟨10, 0⟩]) with suppressClick := false }
        freshQuiz "JPN" "日本").2.feedback.isSome = true ∧
      (handleCountryClick intlNone
        { run hypotAbs expTwo 0 0 idleMapState
            (dragEvents 1 ⟨0, 0⟩ [⟨10, 0⟩]) with suppressClick := false }
        freshQuiz "JPN" "日本").2.selectedId = some "JPN") :=
  ⟨(drag_threshold_click_suppression hypotAbs expTwo 0 0 1 ⟨0, 0⟩ [⟨3, 0⟩]
      idleMapState intlNone freshQuiz "JPN" "日本" sampleFeature rfl rfl rfl
      rfl rfl (by decide)).1
      (by intro p hp; simp at hp; subst hp; norm_num [hypotAbs]),
   (drag_threshold_click_suppression hypotAbs expTwo 0 0 1 ⟨0, 0⟩ [⟨10, 0⟩]
      idleMapState intlNone freshQuiz "JPN" "日本" sampleFeature rfl rfl rfl
      rfl rfl (by decide)).2
      ⟨⟨10, 0⟩, by simp, by norm_num [hypotAbs]⟩⟩

/-!
## C5 — clicks are no-ops under the guards; one accepted answer per round
-/

/-- The guard condition of `handleCountryClick` makes the click a no-op
(both map and quiz state unchanged). -/
theorem click_guard_noop (intl : String → Option String) (ms : MapState)
    (qs : QuizState) (id name : String)
    (h : qs.feedback.isSome = true ∨ qs.loading = true ∨
      1 < ms.pointers.length ∨ qs.currentCountry = none) :
    handleCountryClick intl ms qs id name = (ms, qs) := by
  have hcond : (qs.feedback.isSome || qs.loading ||
      decide (1 < ms.pointers.length) || qs.currentCountry.isNone) = true := by
    rcases h with h | h | h | h <;> simp [h, Option.isNone_iff_eq_none]
  simp [handleCountryClick, hcond]

/-- C5: a region-click selection is a no-op — feedback, selected
identifier and score unchanged — when feedback is already present, or a
hint fetch is loading, or more than one pointer is active, or no round is
active; and once a selection has been accepted (setting feedback), every
further selection in the same round changes nothing. -/
theorem click_noop_under_guards :
    (∀ (intl : String → Option String) (ms : MapState) (qs : QuizState)
      (id name : String),
      (qs.feedback.isSome = true ∨ qs.loading = true ∨
        1 < ms.pointers.length ∨ qs.currentCountry = none) →
      handleCountryClick intl ms qs id name = (ms, qs)) ∧
    (∀ (intl : String → Option String) (ms : MapState) (qs : QuizState)
      (id name : String) (c : GeoFeature),
      qs.feedback = none → qs.loading = false → ¬ 1 < ms.pointers.length →
      qs.currentCountry = some c → ms.suppressClick = false →
      getCountryId c.properties ≠ "" →
      ((handleCountryClick intl ms qs id name).2.feedback.isSome = true ∧
       ∀ id2 name2 : String,
         handleCountryClick intl (handleCountryClick intl ms qs id name).1
           (handleCountryClick intl ms qs id name).2 id2 name2 =
           handleCountryClick intl ms qs id name)) := by
  constructor
  · exact click_guard_noop
  · intro intl ms qs id name c hfb hld hnp hcc hsp htid
    have hfbs : (handleCountryClick intl ms qs id name).2.feedback.isSome = true := by
      simp [handleCountryClick, hfb, hld, hnp, hcc, hsp, htid]
    refine ⟨hfbs, fun id2 name2 => ?_⟩
    rw [click_guard_noop intl _ _ id2 name2 (Or.inl hfbs)]

/-- Witness for C5: a click after feedback is a no-op; a first click in a
fresh round is accepted. -/
theorem click_noop_under_guards_witness :
    handleCountryClick intlNone idleMapState doneQuiz "USA" "アメリカ" =
      (idleMapState, doneQuiz) ∧
    (handleCountryClick intlNone idleMapState freshQuiz "JPN"
      "日本").2.feedback.isSome = true :=
  ⟨click_noop_under_guards.1 intlNone idleMapState doneQuiz "USA" "アメリカ"
      (Or.inl (by decide)),
   (click_noop_under_guards.2 intlNone idleMapState freshQuiz "JPN" "日本"
      sampleFeature rfl rfl (by decide) rfl rfl (by decide)).1⟩

/-!
## C6 — when startNewQuestion is a no-op

The source guards only on an absent collection (`if (!geoData) return`);
a present-but-empty collection is not guarded: the handler still clears
feedback/selection/hint, sets loading, and picks `features[0]`, which is
out of bounds (no region).
-/

/-- C6 counterexample: with a present collection of zero regions,
`startNewQuestion` is not a no-op — it changes feedback, hint and the
current target, and still enters the hint flow. -/
theorem start_round_empty_not_noop :
    emptyColl.features.length = 0 ∧
    (startNewQuestion 0 (some emptyColl) doneQuiz).1.feedback ≠ doneQuiz.feedback ∧
    (startNewQuestion 0 (some emptyColl) doneQuiz).1.hint ≠ doneQuiz.hint ∧
    (startNewQuestion 0 (some emptyColl) doneQuiz).1.currentCountry ≠
      doneQuiz.currentCountry ∧
    (startNewQuestion 0 (some emptyColl) doneQuiz).2 = true := by
  refine ⟨rfl, ?_, ?_, ?_, rfl⟩ <;> simp [startNewQuestion, doneQuiz, emptyColl]

/-- C6 (amended): `startNewQuestion` is a no-op exactly when the loaded
collection is absent; when the collection is present but empty it
proceeds — clearing feedback, selection and hint, setting loading,
resetting the hint panel, setting no current target (the out-of-bounds
random pick), and still invoking the hint flow. -/
theorem start_round_guard :
    (∀ (r : Nat) (qs : QuizState), startNewQuestion r none qs = (qs, false)) ∧
    (∀ (r : Nat) (g : GeoCollection) (qs : QuizState), g.features = [] →
      startNewQuestion r (some g) qs =
        ({ qs with
            currentCountry := none
            feedback := none
            selectedId := none
            isHintMinimized := false
            loading := true
            hint := none }, true)) := by
  constructor
  · intro r qs; rfl
  · intro r g qs h
    simp [startNewQuestion, h]

/-- Witness for C6 (amended) at a concrete state. -/
theorem start_round_guard_witness :
    startNewQuestion 0 none doneQuiz = (doneQuiz, false) ∧
    startNewQuestion 0 (some emptyColl) doneQuiz =
      ({ doneQuiz with
          currentCountry := none
          feedback := none
          selectedId := none
          isHintMinimized := false
          loading := true
          hint := none }, true) :=
  ⟨start_round_guard.1 0 doneQuiz, start_round_guard.2 0 emptyColl doneQuiz rfl⟩

/-!
## C7 — the load-time feature filter

The filter checks only the geometry KIND and the name fields
(`isGeometrySupported`, `hasName`); it does not require a non-empty
coordinate list, so a named `Polygon` with zero points enters the loaded
collection (and can be picked by the quiz), though it is later dropped
from the drawable path set.
-/

/-- JS `a || b` is non-empty whenever `b` is. -/
theorem jsOr_ne_right (a b : String) (hb : b ≠ "") : jsOr a b ≠ "" := by
  unfold jsOr; split_ifs with h
  · exact hb
  · exact h

/-- `getEnglishName` never returns the empty string (it falls back to
a non-empty constant). -/
theorem getEnglishName_ne (p : GeoProperties) : getEnglishName p ≠ "" :=
  jsOr_ne_right _ _ (jsOr_ne_right _ _ (by decide))

/-- `getJapaneseName` never returns the empty string: an empty localized
display falls back to the English name. -/
theorem getJapaneseName_ne (intl : String → Option String)
    (p : GeoProperties) : getJapaneseName intl p ≠ "" := by
  simp only [getJapaneseName]
  split_ifs with h
  · cases hintl : intl (toUpperStr (jsOr (jsStr p.alpha2) (jsStr p.ISO_A2))) with
    | none => exact getEnglishName_ne p
    | some d =>
      by_cases hd : d = ""
      · simp only [hd]
        simpa using getEnglishName_ne p
      · simp [hd]
  · exact getEnglishName_ne p

/-- A kept feature passed the name check, and its properties are the raw
properties (defaulted to the empty bag). -/
theorem convertFeature_some (raw : RawGeoFeature) (f : GeoFeature)
    (h : convertFeature raw = some f) :
    hasName raw.properties = true ∧
      f.properties = raw.properties.getD emptyProps := by
  unfold convertFeature at h
  split_ifs at h with hcond
  simp only [Bool.or_eq_true, Bool.not_eq_true', not_or] at hcond
  obtain ⟨hsup, hname⟩ := hcond
  refine ⟨by simpa using hname, ?_⟩
  cases hg : raw.geometry with
  | none => rw [hg] at h; exact absurd h (by simp)
  | some rg =>
    rw [hg] at h
    cases rg with
    | polygon c =>
      simp [toSupported] at h
      obtain rfl := h
      rfl
    | multiPolygon c =>
      simp [toSupported] at h
      obtain rfl := h
      rfl
    | other k =>
      simp [toSupported] at h

/-- C7 counterexample: a raw feature with a name and a supported geometry
kind whose coordinate list is empty passes the filter, enters the loaded
collection with ZERO points, and can become the quiz target — against the
claim that every loaded Region has at least one point and that such
regions never reach the quiz stage. -/
theorem filter_keeps_pointless_geometry :
    filterFeatures [emptyPolyRaw] =
      [⟨.polygon [], ⟨some "Nowhere", none, none, none, none, none⟩⟩] ∧
    extractPoints (Geometry.polygon []) = [] ∧
    (startNewQuestion 0 (some ⟨filterFeatures [emptyPolyRaw]⟩)
        freshQuiz).1.currentCountry =
      some ⟨.polygon [], ⟨some "Nowhere", none, none, none, none, none⟩⟩ := by
  refine ⟨by decide, rfl, by decide⟩

/-- C7 (amended): every Region entering the loaded collection has a
geometry of a supported kind (by construction) and a non-empty display
name — but possibly zero coordinate points; raw features with missing or
unsupported geometry, or lacking both name fields, are dropped at load
time. -/
theorem filter_invariant :
    (∀ (raws : List RawGeoFeature) (f : GeoFeature), f ∈ filterFeatures raws →
      hasName (some f.properties) = true ∧
      getEnglishName f.properties ≠ "" ∧
      ∀ intl, getJapaneseName intl f.properties ≠ "") ∧
    (∀ (raw : RawGeoFeature) (raws : List RawGeoFeature),
      isGeometrySupported raw.geometry = false ∨ hasName raw.properties = false →
      filterFeatures (raw :: raws) = filterFeatures raws) := by
  constructor
  · intro raws f hf
    rw [filterFeatures, List.mem_filterMap] at hf
    obtain ⟨raw, hmem, hconv⟩ := hf
    obtain ⟨hname, hprops⟩ := convertFeature_some raw f hconv
    refine ⟨?_, getEnglishName_ne _, fun intl => getJapaneseName_ne intl _⟩
    rw [hprops]
    cases hp : raw.properties with
    | none => rw [hp] at hname; exact absurd hname (by decide)
    | some p => rw [hp] at hname; simpa using hname
  · intro raw raws h
    have hc : convertFeature raw = none := by
      unfold convertFeature
      rcases h with h | h <;> simp [h]
    simp [filterFeatures, List.filterMap_cons, hc]

/-- Witness for C7 (amended): the kept test fixture has a name; a raw
feature with valid geometry but no name fields contributes nothing. -/
theorem filter_invariant_witness :
    hasName (some sampleFeature.properties) = true ∧
    getEnglishName sampleFeature.properties ≠ "" ∧
    getJapaneseName intlNone sampleFeature.properties ≠ "" ∧
    filterFeatures [noNameRaw] = filterFeatures [] := by
  have h1 := filter_invariant.1 [rawJapan] sampleFeature (by decide)
  exact ⟨h1.1, h1.2.1, h1.2.2 intlNone,
    filter_invariant.2 noNameRaw [] (Or.inr (by decide))⟩

/-!
## C8 — the fallback hint is determined by the geometry's bounding box
-/

/-- A left fold of `min` is a lower bound for the start and the list. -/
theorem foldl_min_le (l : List ℚ) :
    ∀ a : ℚ, l.foldl min a ≤ a ∧ ∀ x ∈ l, l.foldl min a ≤ x := by
  induction l with
  | nil => intro a; exact ⟨le_refl a, by simp⟩
  | cons c l ih =>
    intro a
    refine ⟨le_trans (ih (min a c)).1 (min_le_left a c), ?_⟩
    intro x hx
    rcases List.mem_cons.mp hx with rfl | hx
    · exact le_trans (ih (min a x)).1 (min_le_right a x)
    · exact (ih (min a c)).2 x hx

/-- A left fold of `max` is an upper bound for the start and the list. -/
theorem foldl_max_ge (l : List ℚ) :
    ∀ a : ℚ, a ≤ l.foldl max a ∧ ∀ x ∈ l, x ≤ l.foldl max a := by
  induction l with
  | nil => intro a; exact ⟨le_refl a, by simp⟩
  | cons c l ih =>
    intro a
    refine ⟨le_trans (le_max_left a c) (ih (max a c)).1, ?_⟩
    intro x hx
    rcases List.mem_cons.mp hx with rfl | hx
    · exact le_trans (le_max_right a x) (ih (max a x)).1
    · exact (ih (max a c)).2 x hx

/-- A left fold of `min` is the start or an element of the list. -/
theorem foldl_min_attained (l : List ℚ) :
    ∀ a : ℚ, l.foldl min a = a ∨ l.foldl min a ∈ l := by
  induction l with
  | nil => intro a; exact Or.inl rfl
  | cons c l ih =>
    intro a
    rw [List.foldl_cons]
    rcases ih (min a c) with h | h
    · rcases le_total a c with hac | hac
      · rw [h, min_eq_left hac]; exact Or.inl rfl
      · rw [h, min_eq_right hac]; exact Or.inr (List.mem_cons_self c l)
    · exact Or.inr (List.mem_cons_of_mem c h)

/-- A left fold of `max` is the start or an element of the list. -/
theorem foldl_max_attained (l : List ℚ) :
    ∀ a : ℚ, l.foldl max a = a ∨ l.foldl max a ∈ l := by
  induction l with
  | nil => intro a; exact Or.inl rfl
  | cons c l ih =>
    intro a
    rw [List.foldl_cons]
    rcases ih (max a c) with h | h
    · rcases le_total a c with hac | hac
      · rw [h, max_eq_right hac]; exact Or.inr (List.mem_cons_self c l)
      · rw [h, max_eq_left hac]; exact Or.inl rfl
    · exact Or.inr (List.mem_cons_of_mem c h)

/-- The `minLat` component of the bounding-box fold. -/
theorem boxFold_minLat (ps : List LonLat) :
    ∀ b : LatLonBox,
      (ps.foldl (fun b q => (⟨min b.minLat q.lat, max b.maxLat q.lat,
        min b.minLon q.lon, max b.maxLon q.lon⟩ : LatLonBox)) b).minLat =
      (ps.map LonLat.lat).foldl min b.minLat := by
  induction ps with
  | nil => intro b; rfl
  | cons q ps ih =>
    intro b
    rw [List.foldl_cons, List.map_cons, List.foldl_cons, ih]

/-- The `maxLat` component of the bounding-box fold. -/
theorem boxFold_maxLat (ps : List LonLat) :
    ∀ b : LatLonBox,
      (ps.foldl (fun b q => (⟨min b.minLat q.lat, max b.maxLat q.lat,
        min b.minLon q.lon, max b.maxLon q.lon⟩ : LatLonBox)) b).maxLat =
      (ps.map LonLat.lat).foldl max b.maxLat := by
  induction ps with
  | nil => intro b; rfl
  | cons q ps ih =>
    intro b
    rw [List.foldl_cons, List.map_cons, List.foldl_cons, ih]

/-- The `minLon` component of the bounding-box fold. -/
theorem boxFold_minLon (ps : List LonLat) :
    ∀ b : LatLonBox,
      (ps.foldl (fun b q => (⟨min b.minLat q.lat, max b.maxLat q.lat,
        min b.minLon q.lon, max b.maxLon q.lon⟩ : LatLonBox)) b).minLon =
      (ps.map LonLat.lon).foldl min b.minLon := by
  induction ps with
  | nil => intro b; rfl
  | cons q ps ih =>
    intro b
    rw [List.foldl_cons, List.map_cons, List.foldl_cons, ih]

/-- The `maxLon` component of the bounding-box fold. -/
theorem boxFold_maxLon (ps : List LonLat) :
    ∀ b : LatLonBox,
      (ps.foldl (fun b q => (⟨min b.minLat q.lat, max b.maxLat q.lat,
        min b.minLon q.lon, max b.maxLon q.lon⟩ : LatLonBox)) b).maxLon =
      (ps.map LonLat.lon).foldl max b.maxLon := by
  induction ps with
  | nil => intro b; rfl
  | cons q ps ih =>
    intro b
    rw [List.foldl_cons, List.map_cons, List.foldl_cons, ih]

/-- `latLonBox` projected to `minLat`. -/
theorem latLonBox_minLat (p : LonLat) (ps : List LonLat) :
    (latLonBox p ps).minLat = (ps.map LonLat.lat).foldl min p.lat := by
  rw [latLonBox, boxFold_minLat]

/-- `latLonBox` projected to `maxLat`. -/
theorem latLonBox_maxLat (p : LonLat) (ps : List LonLat) :
    (latLonBox p ps).maxLat = (ps.map LonLat.lat).foldl max p.lat := by
  rw [latLonBox, boxFold_maxLat]

/-- `latLonBox` projected to `minLon`. -/
theorem latLonBox_minLon (p : LonLat) (ps : List LonLat) :
    (latLonBox p ps).minLon = (ps.map LonLat.lon).foldl min p.lon := by
  rw [latLonBox, boxFold_minLon]

/-- `latLonBox` projected to `maxLon`. -/
theorem latLonBox_maxLon (p : LonLat) (ps : List LonLat) :
    (latLonBox p ps).maxLon = (ps.map LonLat.lon).foldl max p.lon := by
  rw [latLonBox, boxFold_maxLon]

/-- C8: for every region with a non-empty point set, `buildFallbackHint`
equals the spec-side assembly `specHintFromBox` applied to a genuine
bounding box of the point set (bounding every point, with every side
attained) — the hemisphere labels come from the signs of the box centres,
the size label from the box area against the thresholds 20 and 80, and
the shape label from the multi-polygon test; being a function, it is
deterministic in its inputs. -/
theorem fallback_hint_from_bbox :
    ∀ (intl : String → Option String) (f : GeoFeature) (p : LonLat)
      (ps : List LonLat), extractPoints f.geometry = p :: ps →
      ∃ b : LatLonBox,
        (∀ q ∈ extractPoints f.geometry,
          b.minLat ≤ q.lat ∧ q.lat ≤ b.maxLat ∧
          b.minLon ≤ q.lon ∧ q.lon ≤ b.maxLon) ∧
        b.minLat ∈ (extractPoints f.geometry).map LonLat.lat ∧
        b.maxLat ∈ (extractPoints f.geometry).map LonLat.lat ∧
        b.minLon ∈ (extractPoints f.geometry).map LonLat.lon ∧
        b.maxLon ∈ (extractPoints f.geometry).map LonLat.lon ∧
        buildFallbackHint intl f =
          specHintFromBox (getJapaneseName intl f.properties)
            (isFragmented f.geometry) b := by
  intro intl f p ps h
  refine ⟨latLonBox p ps, ?_, ?_, ?_, ?_, ?_, ?_⟩
  · intro q hq
    rw [h] at hq
    have hlat : q.lat ∈ (ps.map LonLat.lat) ∨ q.lat = p.lat := by
      rcases List.mem_cons.mp hq with rfl | hq
      · exact Or.inr rfl
      · exact Or.inl (List.mem_map_of_mem LonLat.lat hq)
    have hlon : q.lon ∈ (ps.map LonLat.lon) ∨ q.lon = p.lon := by
      rcases List.mem_cons.mp hq with rfl | hq
      · exact Or.inr rfl
      · exact Or.inl (List.mem_map_of_mem LonLat.lon hq)
    refine ⟨?_, ?_, ?_, ?_⟩
    · rw [latLonBox_minLat]
      rcases hlat with hm | he
      · exact (foldl_min_le _ p.lat).2 _ hm
      · rw [he]; exact (foldl_min_le _ p.lat).1
    · rw [latLonBox_maxLat]
      rcases hlat with hm | he
      · exact (foldl_max_ge _ p.lat).2 _ hm
      · rw [he]; exact (foldl_max_ge _ p.lat).1
    · rw [latLonBox_minLon]
      rcases hlon with hm | he
      · exact (foldl_min_le _ p.lon).2 _ hm
      · rw [he]; exact (foldl_min_le _ p.lon).1
    · rw [latLonBox_maxLon]
      rcases hlon with hm | he
      · exact (foldl_max_ge _ p.lon).2 _ hm
      · rw [he]; exact (foldl_max_ge _ p.lon).1
  · rw [h, latLonBox_minLat, List.map_cons]
    rcases foldl_min_attained (ps.map LonLat.lat) p.lat with he | he
    · rw [he]; exact List.mem_cons_self _ _
    · exact List.mem_cons_of_mem _ he
  · rw [h, latLonBox_maxLat, List.map_cons]
    rcases foldl_max_attained (ps.map LonLat.lat) p.lat with he | he
    · rw [he]; exact List.mem_cons_self _ _
    · exact List.mem_cons_of_mem _ he
  · rw [h, latLonBox_minLon, List.map_cons]
    rcases foldl_min_attained (ps.map LonLat.lon) p.lon with he | he
    · rw [he]; exact List.mem_cons_self _ _
    · exact List.mem_cons_of_mem _ he
  · rw [h, latLonBox_maxLon, List.map_cons]
    rcases foldl_max_attained (ps.map LonLat.lon) p.lon with he | he
    · rw [he]; exact List.mem_cons_self _ _
    · exact List.mem_cons_of_mem _ he
  · unfold buildFallbackHint specHintFromBox
    rw [h]

/-- Witness for C8 on the square test fixture. -/
theorem fallback_hint_from_bbox_witness :
    ∃ b : LatLonBox,
      (∀ q ∈ extractPoints sampleFeature.geometry,
        b.minLat ≤ q.lat ∧ q.lat ≤ b.maxLat ∧
        b.minLon ≤ q.lon ∧ q.lon ≤ b.maxLon) ∧
      b.minLat ∈ (extractPoints sampleFeature.geometry).map LonLat.lat ∧
      b.maxLat ∈ (extractPoints sampleFeature.geometry).map LonLat.lat ∧
      b.minLon ∈ (extractPoints sampleFeature.geometry).map LonLat.lon ∧
      b.maxLon ∈ (extractPoints sampleFeature.geometry).map LonLat.lon ∧
      buildFallbackHint intlNone sampleFeature =
        specHintFromBox (getJapaneseName intlNone sampleFeature.properties)
          (isFragmented sampleFeature.geometry) b :=
  fallback_hint_from_bbox intlNone sampleFeature ⟨-120, 60⟩
    [⟨120, 60⟩, ⟨120, -20⟩, ⟨-120, -20⟩, ⟨-120, 60⟩] rfl

/-!
## C9 — the coordinate-leak content filter
-/

/-- C9: a parsed remote hint whose main explanation or summary matches a
coordinate-term pattern is rejected and replaced by exactly the
deterministic fallback hint for the same region; a hint matching no
pattern is accepted as-is. -/
theorem coordinate_hint_filter :
    (∀ (intl : String → Option String) (f : GeoFeature) (parsed : Hint),
      (isCoordinateHint parsed.main_hint = true ∨
        isCoordinateHint parsed.summary = true) →
      filterHint intl f parsed = buildFallbackHint intl f) ∧
    (∀ (intl : String → Option String) (f : GeoFeature) (parsed : Hint),
      isCoordinateHint parsed.main_hint = false →
      isCoordinateHint parsed.summary = false →
      filterHint intl f parsed = parsed) := by
  constructor
  · intro intl f parsed h
    rcases h with h | h <;> simp [filterHint, h]
  · intro intl f parsed h1 h2
    simp [filterHint, h1, h2]

/-- Witness for C9: a hint containing 北緯35° is replaced by the
fallback; a clean hint is accepted unchanged. -/
theorem coordinate_hint_filter_witness :
    filterHint intlNone sampleFeature ⟨"北緯35°の国です", "キャッチ"⟩ =
      buildFallbackHint intlNone sampleFeature ∧
    filterHint intlNone sampleFeature ⟨"海に囲まれた国です", "キャッチ"⟩ =
      ⟨"海に囲まれた国です", "キャッチ"⟩ :=
  ⟨coordinate_hint_filter.1 intlNone sampleFeature _ (Or.inl (by decide)),
   coordinate_hint_filter.2 intlNone sampleFeature _ (by decide) (by decide)⟩

/-!
## C10 — pointer-up bookkeeping

The handler removes the released pointer, but recomputes the centroid
(and drag anchor) only when exactly ONE pointer remains; the pinch
baseline `lastDist` is never recomputed on pointer-up.  With two or more
pointers remaining (a three-pointer gesture losing one), both the stored
centroid and the baseline can be stale relative to the remaining pair
until the next pinch move or pointer-down updates them.
-/

/-- A deleted key is no longer in the pointer map. -/
theorem mapHas_mapDelete (m : List (Nat × Pt)) (k : Nat) :
    mapHas (mapDelete m k) k = false := by
  simp [mapHas, mapDelete, List.any_eq_true, List.mem_filter]

/-- C10 counterexample: three pointers at `(0,0)`, `(10,0)`, `(100,0)`
(all distances axis-aligned, so `hypotAbs` agrees with `Math.hypot`);
releasing the first leaves two pointers whose centroid is `(55,0)` and
whose distance is `90`, yet the stored centre stays `(5,0)` and the
stored baseline stays `10` — neither is recomputed from the remaining
pointers as the claim states. -/
theorem pointer_up_stale_counterexample :
    (run hypotAbs expTwo 0 0 idleMapState
        [.down 1 0 0, .down 2 10 0, .down 3 100 0, .up 1]).pointers =
      [(2, ⟨10, 0⟩), (3, ⟨100, 0⟩)] ∧
    (run hypotAbs expTwo 0 0 idleMapState
        [.down 1 0 0, .down 2 10 0, .down 3 100 0, .up 1]).lastCenter =
      some ⟨5, 0⟩ ∧
    getCenter [((2 : Nat), (⟨10, 0⟩ : Pt)), (3, ⟨100, 0⟩)] = ⟨55, 0⟩ ∧
    (run hypotAbs expTwo 0 0 idleMapState
        [.down 1 0 0, .down 2 10 0, .down 3 100 0, .up 1]).lastDist = 10 ∧
    getDist hypotAbs [((2 : Nat), (⟨10, 0⟩ : Pt)), (3, ⟨100, 0⟩)] = 90 := by
  norm_num [run, step, handlePointerDown, handlePointerUp, mapSet, mapDelete,
    mapHas, getCenter, getDist, hypotAbs, idleMapState, initTransform]

/-- C10 (amended): pointer-up (and pointer-cancel, bound to the same
handler) removes the released pointer from the active set and arms the
click suppression when the gesture had moved; the centroid and drag
anchor are recomputed from the remaining pointers only when exactly one
remains (and cleared when none remain); with two or more remaining they
are left stale, and the pinch baseline `lastDist` is never recomputed
here. -/
theorem pointer_up_state :
    ∀ (pid : Nat) (s : MapState),
      (handlePointerUp pid s).pointers = mapDelete s.pointers pid ∧
      mapHas (handlePointerUp pid s).pointers pid = false ∧
      (handlePointerUp pid s).lastDist = s.lastDist ∧
      (handlePointerUp pid s).suppressClick = (s.dragMoved || s.suppressClick) ∧
      ((handlePointerUp pid s).pointers.length = 0 →
        (handlePointerUp pid s).lastCenter = none ∧
        (handlePointerUp pid s).dragStart = none ∧
        (handlePointerUp pid s).dragMoved = false) ∧
      ((handlePointerUp pid s).pointers.length = 1 →
        (handlePointerUp pid s).lastCenter =
          some (getCenter (mapDelete s.pointers pid)) ∧
        (handlePointerUp pid s).dragStart =
          some (getCenter (mapDelete s.pointers pid)) ∧
        (handlePointerUp pid s).dragMoved = false) ∧
      (2 ≤ (handlePointerUp pid s).pointers.length →
        (handlePointerUp pid s).lastCenter = s.lastCenter ∧
        (handlePointerUp pid s).dragStart = s.dragStart ∧
        (handlePointerUp pid s).dragMoved = s.dragMoved) := by
  intro pid s
  obtain ⟨pts, lc, ld, ds, mv, sc, tr⟩ := s
  simp only [handlePointerUp]
  split_ifs with h0 h1
  · exact ⟨rfl, mapHas_mapDelete _ _, rfl, rfl,
      fun _ => ⟨rfl, rfl, rfl⟩, fun h => absurd h (by simp [h0]),
      fun h => absurd h (by simp [h0])⟩
  · exact ⟨rfl, mapHas_mapDelete _ _, rfl, rfl,
      fun h => absurd h (by simp [h1]), fun _ => ⟨rfl, rfl, rfl⟩,
      fun h => absurd h (by simp [h1])⟩
  · exact ⟨rfl, mapHas_mapDelete _ _, rfl, rfl,
      fun h => absurd h h0, fun h => absurd h h1,
      fun _ => ⟨rfl, rfl, rfl⟩⟩

/-- Witness for C10 (amended): releasing one of two pointers recomputes
the centre and drag anchor from the single remaining pointer. -/
theorem pointer_up_state_witness :
    (handlePointerUp 1 pinchState).lastCenter =
      some (getCenter (mapDelete pinchState.pointers 1)) ∧
    (handlePointerUp 1 pinchState).dragStart =
      some (getCenter (mapDelete pinchState.pointers 1)) ∧
    (handlePointerUp 1 pinchState).dragMoved = false :=
  (pointer_up_state 1 pinchState).2.2.2.2.2.1
    (by norm_num [handlePointerUp, pinchState, mapDelete])
